import Mathlib

/-!
Verification of the org-syn-scraper crawl client.

The development shallowly embeds the pure parts of the two Python sources
`org_syn_scrapper.py` and `org-syn-scrapper.py`: the `PdfDescription`
record with its derived slug and download path, the link deduplicator,
the retry loops around the HTTP requests, the two-tier link/title
extraction of `request_volume_page_pdf_links`, the per-worker validation
of `do_load_volume_pages_pdf_links`, and the `numpy.array_split` page
chunking of `do_load_volume_links_parallel`.

Strings are modelled as `List Char`; network effects are modelled by
passing an abstract transport (attempt number to optional response) or an
abstract server view into the embedded functions.
-/

/-- Strings of the Python program, modelled as lists of characters. -/
abbrev Str := List Char

/-- Whitespace as recognised by Python's `str.strip()`, restricted to the
ASCII whitespace code points exercised in this development
(space, tab, line feed, carriage return, vertical tab, form feed). -/
def isPySpace (c : Char) : Bool :=
  c = ' ' || c = '\t' || c = '\n' || c = '\r' || c = '\x0b' || c = '\x0c'

/-- Python's Unicode-aware regex class `\w` (letters, digits, underscore),
restricted to the code points exercised in this development: ASCII
letters and digits, the underscore, and the Greek letter blocks
U+0391–U+03A9 (capital, U+03A2 unassigned) and U+03B1–U+03C9 (small). -/
def isPyWord (c : Char) : Bool :=
  (('A' ≤ c && c ≤ 'Z') || ('a' ≤ c && c ≤ 'z') || ('0' ≤ c && c ≤ '9')
    || c = '_'
    || (0x391 ≤ c.toNat && c.toNat ≤ 0x3A9 && c.toNat ≠ 0x3A2)
    || (0x3B1 ≤ c.toNat && c.toNat ≤ 0x3C9))

/-- A character survives the substitution `re.sub(r'(?u)[^-\w.]', '', s)`
exactly when it matches `[-\w.]`. -/
def slugKeep (c : Char) : Bool :=
  isPyWord c || c = '-' || c = '.'

/-- Python's `str.strip()`: drop leading and trailing whitespace. -/
def pyStrip (s : Str) : Str :=
  ((s.dropWhile isPySpace).reverse.dropWhile isPySpace).reverse

/-- Python's `str.replace(' ', '_')`: every space becomes an underscore. -/
def replaceSpace (s : Str) : Str :=
  s.map (fun c => if c = ' ' then '_' else c)

/-- `PdfDescription.slug` (`org_syn_scrapper.py` lines 116–129 and
`org-syn-scrapper.py` lines 111–117):
`re.sub(r'(?u)[^-\w.]', '', str(self.name).strip().replace(' ', '_'))`. -/
def pySlug (name : Str) : Str :=
  (replaceSpace (pyStrip name)).filter slugKeep

/-- The record built by `PdfDescription.__init__`: constructor arguments
`annual_volume, page, name, url` and `aliases` initialised to `[]`. -/
structure PdfDescription where
  annual_volume : Str
  page : Str
  name : Str
  url : Str
  aliases : List Str
deriving DecidableEq, Repr

/-- `PdfDescription(volume, page, name, url)`: a freshly constructed
descriptor, whose alias list is empty. -/
def mkDesc (annual_volume page name url : Str) : PdfDescription :=
  ⟨annual_volume, page, name, url, []⟩

/-- The derived slug of a descriptor. -/
def PdfDescription.slug (d : PdfDescription) : Str :=
  pySlug d.name

/-- `PdfDescription.download_path`: `f"{annual_volume}/{page}/{slug}.pdf"`. -/
def PdfDescription.download_path (d : PdfDescription) : Str :=
  d.annual_volume ++ '/' :: (d.page ++ '/' :: (d.slug ++ ".pdf".toList))

/-- The inner `for dedup_descs in deduplicated_descriptions` loop of
`OrgSynScrapper.deduplicate_links` (`org_syn_scrapper.py` lines 781–803):
at the first already-accepted descriptor with the same `url`, the incoming
descriptor is dropped — exactly as a duplicate when the names match or the
name is already an alias, otherwise after appending its name to that
descriptor's alias list; when no accepted descriptor shares the `url`, the
incoming descriptor is appended at the end. -/
def dedupInsert : List PdfDescription → PdfDescription → List PdfDescription
  | [], d => [d]
  | a :: rest, d =>
    if a.url = d.url then
      (if a.name = d.name then a :: rest
       else if d.name ∈ a.aliases then a :: rest
       else { a with aliases := a.aliases ++ [d.name] } :: rest)
    else a :: dedupInsert rest d

/-- `OrgSynScrapper.deduplicate_links`: the left-to-right scan over the
incoming list, starting from an empty accepted list. -/
def deduplicate_links (links : List PdfDescription) : List PdfDescription :=
  links.foldl dedupInsert []

/-- First-seen-order deduplication of the url column; the specification's
reading of what the accepted descriptors of `deduplicate_links` are. -/
def firstSeen (us : List Str) : List Str :=
  us.foldl (fun acc u => if u ∈ acc then acc else acc ++ [u]) []

/-- The outcome of a bounded retry loop: how many times the transport was
invoked, the argument of each `time.sleep` call in order, and the final
response (`none` when every attempt failed). -/
structure RetryOutcome (R : Type) where
  attempts : Nat
  sleeps : List Nat
  response : Option R
deriving DecidableEq, Repr

/-- The `for i in indices: try ... break / except ... time.sleep(i * 10)`
pattern shared by every request function. The transport maps the loop
index to `some` response (request succeeded, loop breaks) or `none`
(`RequestException`/`URLError` raised, `time.sleep(i * 10)` runs and the
loop continues). -/
def runRetry {R : Type} : List Nat → (Nat → Option R) → RetryOutcome R
  | [], _ => ⟨0, [], none⟩
  | i :: rest, transport =>
    match transport i with
    | some r => ⟨1, [], some r⟩
    | none =>
      let tr := runRetry rest transport
      ⟨tr.attempts + 1, i * 10 :: tr.sleeps, tr.response⟩

/-- The loop indices of `request_volumes` / `requestVolumes`:
`for i in range(1, 5)` — both source files. -/
def volumesRetryIndices : List Nat := [1, 2, 3, 4]

/-- The loop indices of `request_pages_of_volume`,
`request_volume_page_pdf_links` and the newer `download_pdf_file`:
`for i in range(5)`. -/
def fiveRetryIndices : List Nat := [0, 1, 2, 3, 4]

/-- `OrgSynScrapper.request_volumes`' retry boundary: on exhaustion the
function prints "Could not fetch the volumes after 5 tries." and returns
`[]`; on success the volume option values parsed from the page (the
parsing is abstracted into the transport's successful response). -/
def request_volumes (transport : Nat → Option (List Str)) : List Str :=
  match (runRetry volumesRetryIndices transport).response with
  | none => []
  | some volumes => volumes

/-- `OrgSynScrapper.request_pages_of_volume`'s retry boundary: `[]` on
exhaustion, the parsed page list on success. -/
def request_pages_of_volume (transport : Nat → Option (List Str)) : List Str :=
  match (runRetry fiveRetryIndices transport).response with
  | none => []
  | some pages => pages

/-- The newer `OrgSynScrapper.download_pdf_file` (snake_case file): five
attempts, `False` on exhaustion, `True` on a successful transfer. -/
def download_pdf_file (transport : Nat → Option Unit) : Bool :=
  (runRetry fiveRetryIndices transport).response.isSome

/-- The legacy `OrgSynScrapper.downloadPdfFile`
(`org-syn-scrapper.py` lines 603–616): one single `try` around
`urlretrieve` with no retry loop at all — `False` on the first failure. -/
def downloadPdfFile (transport : Nat → Option Unit) : Bool :=
  (transport 0).isSome

/-- The parsed pieces of a full HTML search response that
`request_volume_page_pdf_links` reads, in document order: the `href`
attributes of all tags carrying one, the texts of the
`#ctl00_MainContent_procedureBody > .title` elements, the `id` attributes
of the `div.collapsibleContainer` elements, and the texts of the
`div.procTitle` elements. -/
structure PageDoc where
  hrefs : List Str
  bodyTitleTexts : List Str
  containerIds : List Str
  procTitleTexts : List Str

/-- A search response: the final URL after redirects (`response.url`) and
the parsed document. -/
structure SearchResponse where
  finalUrl : Str
  doc : PageDoc

/-- `l` starts with `s` (Python `str.startswith`). -/
def startsWithCL (l s : Str) : Bool :=
  l.take s.length == s

/-- `l` ends with `s` (Python `str.endswith`). -/
def endsWithCL (l s : Str) : Bool :=
  s.length ≤ l.length && l.drop (l.length - s.length) == s

/-- `OrgSynScrapper.pdf_link_filter` (`org_syn_scrapper.py` lines
366–377), applied to a tag's `href` attribute: the link target starts
with "Content" and ends with ".pdf". -/
def pdf_link_filter (href : Str) : Bool :=
  startsWithCL href "Content".toList && endsWithCL href ".pdf".toList

/-- The site root `OrgSynScrapper.URL`. -/
def orgSynUrl : Str := "http://orgsyn.org".toList

/-- `urllib.parse.urljoin(OrgSynScrapper.URL, href)` for the relative
hrefs this program produces (they all start with "Content"): the base has
an empty path, so the result is the base, a slash and the href. -/
def urljoinOrgSyn (href : Str) : Str :=
  orgSynUrl ++ '/' :: href

/-- `pathlib.Path(url).stem` for the URLs this program handles (no
trailing slash): the part after the last '/', with the final suffix
removed; a suffix exists when the last dot is neither the first nor the
last character of that part. -/
def pathStem (s : Str) : Str :=
  let nm := (s.reverse.takeWhile (fun c => c ≠ '/')).reverse
  match nm.reverse.findIdx? (fun c => c = '.') with
  | none => nm
  | some j =>
    let i := nm.length - 1 - j
    if 0 < i ∧ i < nm.length - 1 then nm.take i else nm

/-- The links the extractor works on
(`org_syn_scrapper.py` lines 587–606): the `urljoin`ed hrefs accepted by
`pdf_link_filter`; when that primary selection is empty, the fallback
links `Content/pdfs/procedures/{id}.pdf` built from the
`collapsibleContainer` ids instead. -/
def chosenLinks (doc : PageDoc) : List Str :=
  let linkTags := doc.hrefs.filter pdf_link_filter
  if linkTags.isEmpty then
    doc.containerIds.map fun i =>
      urljoinOrgSyn ("Content/pdfs/procedures/".toList ++ i ++ ".pdf".toList)
  else
    linkTags.map urljoinOrgSyn

/-- The stripped title texts paired with `chosenLinks`: from the results
container's `.title` elements, or from the `procTitle` elements when the
primary link selection is empty. -/
def chosenTitles (doc : PageDoc) : List Str :=
  (if (doc.hrefs.filter pdf_link_filter).isEmpty then doc.procTitleTexts
   else doc.bodyTitleTexts).map pyStrip

/-- The response-processing part of
`OrgSynScrapper.request_volume_page_pdf_links`
(`org_syn_scrapper.py` lines 580–622): if the final URL already ends in
".pdf" (the server redirected straight to the document), one descriptor
named by the URL's filename stem; otherwise the two-tier link/title
extraction — positional 1:1 pairing when the counts match, filename-stem
naming for every link when they do not. -/
def extract_pdf_links (volume page : Str) (resp : SearchResponse) :
    List PdfDescription :=
  if endsWithCL resp.finalUrl ".pdf".toList then
    [mkDesc volume page (pathStem resp.finalUrl) resp.finalUrl]
  else
    let links := chosenLinks resp.doc
    let titles := chosenTitles resp.doc
    if titles.length = links.length then
      (titles.zip links).map fun tl => mkDesc volume page tl.1 tl.2
    else
      links.map fun u => mkDesc volume page (pathStem u) u

/-- The errors raised by `do_load_volume_pages_pdf_links`:
"The volume {volume} does not exist" and
"The page {page} does not exist in volume {volume}". -/
inductive ScrapeError where
  | volumeMissing (volume : Str)
  | pageMissing (page volume : Str)
deriving DecidableEq, Repr

/-- A worker's view of the server: the volume list returned by
`request_volumes`, each volume's page list returned by
`request_pages_of_volume`, and the descriptors returned by
`request_volume_page_pdf_links` per volume and page. -/
structure ServerView where
  volumes : List Str
  pagesOf : Str → List Str
  linksOf : Str → Str → List PdfDescription

/-- The `for page in pages` loop of `do_load_volume_pages_pdf_links`: each
page is checked against the freshly fetched `volume_pages` before its
links are requested and appended; a page outside that list raises. -/
def loadPagesLoop (srv : ServerView) (volume : Str) (volumePages : List Str) :
    List Str → List PdfDescription → Except ScrapeError (List PdfDescription)
  | [], acc => .ok acc
  | p :: rest, acc =>
    if p ∈ volumePages then
      loadPagesLoop srv volume volumePages rest (acc ++ srv.linksOf volume p)
    else
      .error (.pageMissing p volume)

/-- `OrgSynScrapper.do_load_volume_pages_pdf_links`
(`org_syn_scrapper.py` lines 624–650): a worker task re-fetches the
volume list, raises if its volume is absent, re-fetches the volume's page
list, and walks its assigned pages, validating each before requesting its
links. -/
def do_load_volume_pages_pdf_links (srv : ServerView) (volume : Str)
    (pages : List Str) : Except ScrapeError (List PdfDescription) :=
  if volume ∈ srv.volumes then
    loadPagesLoop srv volume (srv.pagesOf volume) pages []
  else
    .error (.volumeMissing volume)

/-- The section sizes of `numpy.array_split(l, n)`: `len % n` sections of
size `len / n + 1` followed by `n - len % n` sections of size `len / n`. -/
def splitSizes (len n : Nat) : List Nat :=
  List.replicate (len % n) (len / n + 1) ++ List.replicate (n - len % n) (len / n)

/-- Cut successive sections of the given sizes off the front of a list. -/
def splitBySizes {α : Type} : List Nat → List α → List (List α)
  | [], _ => []
  | s :: ss, l => l.take s :: splitBySizes ss (l.drop s)

/-- `numpy.array_split(pages, number_of_processes)` as used by
`do_load_volume_links_parallel` (`org_syn_scrapper.py` lines 732–763) on
a one-dimensional sequence. -/
def array_split {α : Type} (l : List α) (n : Nat) : List (List α) :=
  splitBySizes (splitSizes l.length n) l

/-- A concrete server view: one volume "95" with pages "1" and "2". -/
def sampleServer : ServerView where
  volumes := ["95".toList]
  pagesOf := fun v => if v = "95".toList then ["1".toList, "2".toList] else []
  linksOf := fun _ _ => []

/-- A concrete parsed page with two primary-layout links but three titles. -/
def mismatchDoc : PageDoc where
  hrefs := ["Content/pdfs/procedures/a.pdf".toList,
            "Content/pdfs/procedures/b.pdf".toList]
  bodyTitleTexts := ["T1".toList, "T2".toList, "T3".toList]
  containerIds := []
  procTitleTexts := []

/-- A concrete parsed page on which the primary selection finds one link. -/
def primaryDoc : PageDoc where
  hrefs := ["Content/x.pdf".toList]
  bodyTitleTexts := ["T".toList]
  containerIds := ["c1".toList]
  procTitleTexts := ["P".toList]

/-- A concrete non-document final URL. -/
def htmlFinalUrl : Str := "http://orgsyn.org/Default.aspx".toList

/-- Ten concrete page labels. -/
def tenPages : List Str :=
  ["p1".toList, "p2".toList, "p3".toList, "p4".toList, "p5".toList,
   "p6".toList, "p7".toList, "p8".toList, "p9".toList, "p10".toList]

theorem slugKeep_not_space {c : Char} (h : slugKeep c = true) : isPySpace c = false := by
  cases hq : isPySpace c with
  | false => rfl
  | true =>
    exfalso
    unfold isPySpace at hq
    simp only [Bool.or_eq_true, decide_eq_true_eq] at hq
    rcases hq with ((((h1 | h1) | h1) | h1) | h1) | h1 <;> subst h1 <;>
      exact absurd h (by decide)

theorem slugKeep_ne_space {c : Char} (h : slugKeep c = true) : c ≠ ' ' := by
  intro hc
  subst hc
  exact absurd h (by decide)

theorem dropWhile_of_all_false {p : Char → Bool} {l : Str}
    (h : ∀ c ∈ l, p c = false) : l.dropWhile p = l := by
  cases l with
  | nil => rfl
  | cons a t => simp [List.dropWhile_cons, h a (List.mem_cons_self a t)]

theorem pyStrip_noop {l : Str} (h : ∀ c ∈ l, isPySpace c = false) : pyStrip l = l := by
  unfold pyStrip
  rw [dropWhile_of_all_false h]
  rw [dropWhile_of_all_false (fun c hc => h c (List.mem_reverse.mp hc))]
  exact List.reverse_reverse l

theorem replaceSpace_noop {l : Str} (h : ∀ c ∈ l, c ≠ ' ') : replaceSpace l = l := by
  induction l with
  | nil => rfl
  | cons a t ih =>
    have ha : ¬(a = ' ') := h a (List.mem_cons_self a t)
    have ht : replaceSpace t = t := ih fun c hc => h c (List.mem_cons_of_mem a hc)
    unfold replaceSpace at *
    simp only [List.map_cons, if_neg ha, ht]

theorem pySlug_mem_keep {name : Str} {c : Char} (h : c ∈ pySlug name) :
    slugKeep c = true :=
  List.of_mem_filter h

theorem pySlug_noop {name : Str} (h : ∀ c ∈ name, slugKeep c = true) :
    pySlug name = name := by
  have hspace : ∀ c ∈ name, isPySpace c = false :=
    fun c hc => slugKeep_not_space (h c hc)
  unfold pySlug
  rw [pyStrip_noop hspace]
  rw [replaceSpace_noop (fun c hc => slugKeep_ne_space (h c hc))]
  exact List.filter_eq_self.mpr h

theorem pySlug_empty {name : Str}
    (h : ∀ c ∈ pyStrip name, c ≠ ' ' ∧ slugKeep c = false) : pySlug name = [] := by
  unfold pySlug
  rw [replaceSpace_noop (fun c hc => (h c hc).1)]
  exact List.filter_eq_nil_iff.mpr fun c hc => by simp [(h c hc).2]

/-- C1: the slug's alphabet and idempotence, amended. The slug keeps every
Unicode word character (not only `[A-Za-z0-9_]`), plus the hyphen and the
dot; the derivation fixes any string of such characters; and the name
"Synthesis of β-Bromostyrene" yields "Synthesis_of_β-Bromostyrene" — the
Greek letter survives Python's Unicode-aware `\w`. -/
theorem C1_slug_amended (name : Str) :
    (∀ c ∈ pySlug name, slugKeep c = true) ∧
    ((∀ c ∈ name, slugKeep c = true) → pySlug name = name) ∧
    pySlug "Synthesis of β-Bromostyrene".toList =
      "Synthesis_of_β-Bromostyrene".toList :=
  ⟨fun _ hc => pySlug_mem_keep hc, fun h => pySlug_noop h, by decide⟩

/-- C1 witness: the already-valid slug "abc.1-2" is fixed by the derivation. -/
theorem C1_slug_amended_witness :
    (∀ c ∈ ("abc.1-2".toList : Str), slugKeep c = true) ∧
      pySlug "abc.1-2".toList = "abc.1-2".toList :=
  ⟨by decide, (C1_slug_amended "abc.1-2".toList).2.1 (by decide)⟩

/-- C1 counterexample: the spec's own example fails on the code. Python's
`(?u)` substitution keeps the Unicode letter β, so the name
"Synthesis of β-Bromostyrene" does NOT slugify to
"Synthesis_of_-Bromostyrene", and the slug is not confined to
`[A-Za-z0-9_.-]`. -/
theorem C1_slug_counterexample :
    pySlug "Synthesis of β-Bromostyrene".toList ≠
      "Synthesis_of_-Bromostyrene".toList ∧
    'β' ∈ pySlug "β".toList := by
  exact ⟨by decide, by decide⟩

/-- C10 amended: a name that is empty or consists, after stripping
leading/trailing whitespace, solely of non-space characters dropped by the
slug substitution has the empty slug, and its download path degenerates to
`{volume}/{page}/.pdf`; distinct descriptors with the same volume and page
whose names both vanish (for example "@@" and "!!") thus share one
download path, so one downloaded file silently overwrites the other. -/
theorem C10_empty_slug_collision (v p name u : Str) (al : List Str)
    (h : ∀ c ∈ pyStrip name, c ≠ ' ' ∧ slugKeep c = false) :
    pySlug name = [] ∧
    PdfDescription.download_path ⟨v, p, name, u, al⟩ =
      v ++ '/' :: (p ++ "/.pdf".toList) ∧
    (∀ u1 u2 : Str,
      PdfDescription.download_path (mkDesc v p "@@".toList u1) =
        PdfDescription.download_path (mkDesc v p "!!".toList u2)) ∧
    ("@@".toList : Str) ≠ "!!".toList := by
  have hs : pySlug name = [] := pySlug_empty h
  refine ⟨hs, ?_, ?_, by decide⟩
  · simp [PdfDescription.download_path, PdfDescription.slug, hs]
  · intro u1 u2
    have h1 : pySlug "@@".toList = [] := by decide
    have h2 : pySlug "!!".toList = [] := by decide
    simp only [PdfDescription.download_path, PdfDescription.slug, mkDesc, h1, h2]

/-- C10 witness: the name " @@ " has an empty slug and the degenerate
download path, at volume "95", page "1". -/
theorem C10_empty_slug_collision_witness :
    pySlug " @@ ".toList = [] ∧
    PdfDescription.download_path
        ⟨"95".toList, "1".toList, " @@ ".toList, "url".toList, []⟩ =
      "95".toList ++ '/' :: ("1".toList ++ "/.pdf".toList) ∧
    (∀ u1 u2 : Str,
      PdfDescription.download_path (mkDesc "95".toList "1".toList "@@".toList u1) =
        PdfDescription.download_path (mkDesc "95".toList "1".toList "!!".toList u2)) ∧
    ("@@".toList : Str) ≠ "!!".toList :=
  C10_empty_slug_collision "95".toList "1".toList " @@ ".toList "url".toList []
    (by decide)

/-- C10 counterexample: the claim's precondition "consists only of
whitespace and characters removed by slug derivation" is satisfied by the
name "@ @", yet its slug is "_", not the empty string — the interior space
is rewritten to an underscore before the substitution and survives it. -/
theorem C10_interior_space_counterexample :
    (∀ c ∈ ("@ @".toList : Str), isPySpace c = true ∨ slugKeep c = false) ∧
    pySlug "@ @".toList = "_".toList ∧
    pySlug "@ @".toList ≠ ([] : Str) := by
  exact ⟨by decide, by decide, by decide⟩

theorem dedupInsert_map_url (acc : List PdfDescription) (d : PdfDescription) :
    (dedupInsert acc d).map (fun x => x.url) =
      (if d.url ∈ acc.map (fun x => x.url) then acc.map (fun x => x.url)
       else acc.map (fun x => x.url) ++ [d.url]) := by
  induction acc with
  | nil => simp [dedupInsert]
  | cons a rest ih =>
    by_cases h : a.url = d.url
    · rw [dedupInsert, if_pos h]
      have hmem : d.url ∈ (a :: rest).map (fun x => x.url) := by
        simp [← h]
      rw [if_pos hmem]
      by_cases h1 : a.name = d.name
      · rw [if_pos h1]
      · rw [if_neg h1]
        by_cases h2 : d.name ∈ a.aliases
        · rw [if_pos h2]
        · rw [if_neg h2]
          simp
    · rw [dedupInsert, if_neg h]
      simp only [List.map_cons, ih, List.mem_cons]
      have hne : ¬(d.url = a.url) := fun hh => h hh.symm
      by_cases hm : d.url ∈ rest.map fun x => x.url
      · simp [hm, hne]
      · simp [hm, hne]

theorem foldl_dedupInsert_map_url (links : List PdfDescription) :
    ∀ acc : List PdfDescription,
      (links.foldl dedupInsert acc).map (fun x => x.url) =
        (links.map fun x => x.url).foldl
          (fun us u => if u ∈ us then us else us ++ [u])
          (acc.map fun x => x.url) := by
  induction links with
  | nil => intro acc; rfl
  | cons d rest ih =>
    intro acc
    simp only [List.foldl_cons, List.map_cons]
    rw [ih, dedupInsert_map_url]

theorem dedup_map_url (links : List PdfDescription) :
    (deduplicate_links links).map (fun d => d.url) =
      firstSeen (links.map fun d => d.url) := by
  unfold deduplicate_links firstSeen
  exact foldl_dedupInsert_map_url links []

theorem foldl_firstSeen_nodup (us : List Str) :
    ∀ acc : List Str, acc.Nodup →
      (us.foldl (fun acc u => if u ∈ acc then acc else acc ++ [u]) acc).Nodup := by
  induction us with
  | nil => intro acc h; exact h
  | cons u rest ih =>
    intro acc h
    simp only [List.foldl_cons]
    by_cases hm : u ∈ acc
    · rw [if_pos hm]
      exact ih acc h
    · rw [if_neg hm]
      exact ih (acc ++ [u]) (by simp [List.nodup_append, h, hm])

theorem firstSeen_nodup (us : List Str) : (firstSeen us).Nodup :=
  foldl_firstSeen_nodup us [] List.nodup_nil

theorem dedupInsert_of_url_not_mem {acc : List PdfDescription}
    {d : PdfDescription} (h : d.url ∉ acc.map fun x => x.url) :
    dedupInsert acc d = acc ++ [d] := by
  induction acc with
  | nil => rfl
  | cons a rest ih =>
    simp only [List.map_cons, List.mem_cons] at h
    push_neg at h
    rw [dedupInsert, if_neg fun hh => h.1 hh.symm, ih h.2]
    rfl

theorem foldl_dedupInsert_of_nodup (ls : List PdfDescription) :
    ∀ acc : List PdfDescription,
      ((acc ++ ls).map (fun x => x.url)).Nodup →
      ls.foldl dedupInsert acc = acc ++ ls := by
  induction ls with
  | nil => intro acc _; simp
  | cons d rest ih =>
    intro acc h
    simp only [List.foldl_cons]
    have hd : d.url ∉ acc.map fun x => x.url := by
      intro hmem
      rw [List.map_append] at h
      have hdisj := (List.nodup_append.mp h).2.2
      exact hdisj hmem (by simp)
    rw [dedupInsert_of_url_not_mem hd]
    have hrest := ih (acc ++ [d]) (by simpa using h)
    simpa using hrest

theorem dedup_pair_alias (v1 p1 v2 p2 nA nB u : Str) (hne : nA ≠ nB) :
    deduplicate_links [mkDesc v1 p1 nA u, mkDesc v2 p2 nB u] =
      [⟨v1, p1, nA, u, [nB]⟩] := by
  simp [deduplicate_links, dedupInsert, mkDesc, hne]

theorem dedup_triple_alias (v1 p1 v2 p2 v3 p3 nA nB u : Str) (hne : nA ≠ nB) :
    deduplicate_links
        [mkDesc v1 p1 nA u, mkDesc v2 p2 nB u, mkDesc v3 p3 nB u] =
      [⟨v1, p1, nA, u, [nB]⟩] := by
  simp [deduplicate_links, dedupInsert, mkDesc, hne]

/-- C2: two descriptors with the same url named "A" then "B" merge into a
single descriptor named "A" with aliases ["B"]; a third entry with the
same url and name "B" again changes nothing (the alias is not duplicated);
and the deduplicated list carries the urls in first-seen order. -/
theorem C2_dedup_alias_merge (v1 p1 v2 p2 v3 p3 u : Str) :
    deduplicate_links [mkDesc v1 p1 "A".toList u, mkDesc v2 p2 "B".toList u] =
      [⟨v1, p1, "A".toList, u, ["B".toList]⟩] ∧
    deduplicate_links
        [mkDesc v1 p1 "A".toList u, mkDesc v2 p2 "B".toList u,
          mkDesc v3 p3 "B".toList u] =
      [⟨v1, p1, "A".toList, u, ["B".toList]⟩] ∧
    ∀ links : List PdfDescription,
      (deduplicate_links links).map (fun d => d.url) =
        firstSeen (links.map fun d => d.url) :=
  ⟨dedup_pair_alias v1 p1 v2 p2 "A".toList "B".toList u (by decide),
   dedup_triple_alias v1 p1 v2 p2 v3 p3 "A".toList "B".toList u (by decide),
   fun links => dedup_map_url links⟩

/-- C3: `deduplicate_links` is idempotent — its output has pairwise
distinct urls, and on such a list a second pass accepts every descriptor
unchanged, in order, touching no alias list. -/
theorem C3_dedup_idempotent (links : List PdfDescription) :
    deduplicate_links (deduplicate_links links) = deduplicate_links links := by
  have hnodup : ((deduplicate_links links).map fun x => x.url).Nodup := by
    rw [dedup_map_url]
    exact firstSeen_nodup _
  have hid := foldl_dedupInsert_of_nodup (deduplicate_links links) []
    (by simpa using hnodup)
  simpa [deduplicate_links] using hid

/-- C4: evaluated on a transport that fails transiently on every attempt,
the volume-listing request is attempted only 4 times — `for i in
range(1, 5)` — although its own exhaustion message reads "Could not fetch
the volumes after 5 tries."; the page listing and the newer per-file
download do make 5 attempts (sleeping 0,10,20,30,40 seconds); the legacy
`downloadPdfFile` makes a single attempt with no retry. All degrade to an
empty list or a failure flag instead of raising. -/
theorem C4_retry_attempt_counts :
    (runRetry volumesRetryIndices fun _ => (none : Option (List Str))).attempts
        = 4 ∧
    (runRetry volumesRetryIndices fun _ => (none : Option (List Str))).sleeps
        = [10, 20, 30, 40] ∧
    request_volumes (fun _ => none) = [] ∧
    (runRetry fiveRetryIndices fun _ => (none : Option (List Str))).attempts
        = 5 ∧
    (runRetry fiveRetryIndices fun _ => (none : Option (List Str))).sleeps
        = [0, 10, 20, 30, 40] ∧
    request_pages_of_volume (fun _ => none) = [] ∧
    download_pdf_file (fun _ => none) = false ∧
    downloadPdfFile (fun _ => none) = false :=
  ⟨rfl, rfl, rfl, rfl, rfl, rfl, rfl, rfl⟩

/-- C5: when the final response URL ends in ".pdf", the extractor returns
exactly one descriptor whose name is the URL's filename stem and whose url
is that final URL, whatever the parsed document holds — no link/title
pairing happens. -/
theorem C5_redirect_shortcut (volume page u : Str) (doc : PageDoc)
    (h : endsWithCL u ".pdf".toList = true) :
    extract_pdf_links volume page ⟨u, doc⟩ =
      [mkDesc volume page (pathStem u) u] := by
  have h' : endsWithCL u ['.', 'p', 'd', 'f'] = true := h
  simp [extract_pdf_links, h']

/-- C5 witness: the final URL `.../Content/pdfs/procedures/foo.pdf` yields
the single descriptor named "foo". -/
theorem C5_redirect_shortcut_witness :
    extract_pdf_links "88".toList "1".toList
        ⟨"http://orgsyn.org/Content/pdfs/procedures/foo.pdf".toList,
          ⟨[], [], [], []⟩⟩ =
      [mkDesc "88".toList "1".toList
        (pathStem "http://orgsyn.org/Content/pdfs/procedures/foo.pdf".toList)
        "http://orgsyn.org/Content/pdfs/procedures/foo.pdf".toList] ∧
    pathStem "http://orgsyn.org/Content/pdfs/procedures/foo.pdf".toList =
      "foo".toList :=
  ⟨C5_redirect_shortcut "88".toList "1".toList
      "http://orgsyn.org/Content/pdfs/procedures/foo.pdf".toList
      ⟨[], [], [], []⟩ (by decide),
   by decide⟩

/-- C6: on a non-redirect response, when the title count differs from the
link count every link becomes a descriptor named by its URL's filename
stem; 1:1 positional pairing happens exactly when the counts agree; and in
both cases the extractor emits one descriptor per link — none dropped. -/
theorem C6_count_mismatch_fallback (volume page u : Str) (doc : PageDoc)
    (hu : endsWithCL u ".pdf".toList = false) :
    ((chosenTitles doc).length ≠ (chosenLinks doc).length →
      extract_pdf_links volume page ⟨u, doc⟩ =
        (chosenLinks doc).map fun l => mkDesc volume page (pathStem l) l) ∧
    ((chosenTitles doc).length = (chosenLinks doc).length →
      extract_pdf_links volume page ⟨u, doc⟩ =
        ((chosenTitles doc).zip (chosenLinks doc)).map fun tl =>
          mkDesc volume page tl.1 tl.2) ∧
    (extract_pdf_links volume page ⟨u, doc⟩).length =
      (chosenLinks doc).length := by
  have hu' : endsWithCL u ['.', 'p', 'd', 'f'] = false := hu
  refine ⟨fun hne => ?_, fun heq => ?_, ?_⟩
  · simp [extract_pdf_links, hu', hne]
  · simp [extract_pdf_links, hu', heq]
  · by_cases heq : (chosenTitles doc).length = (chosenLinks doc).length
    · simp [extract_pdf_links, hu', heq, List.length_zip]
    · simp [extract_pdf_links, hu', heq]

/-- C6 witness: two primary-layout links but three titles — each link is
named by its filename stem, none is dropped. -/
theorem C6_count_mismatch_fallback_witness :
    extract_pdf_links "49".toList "121".toList ⟨htmlFinalUrl, mismatchDoc⟩ =
      (chosenLinks mismatchDoc).map (fun l =>
        mkDesc "49".toList "121".toList (pathStem l) l) ∧
    (chosenLinks mismatchDoc).length = 2 ∧
    (chosenTitles mismatchDoc).length = 3 :=
  ⟨(C6_count_mismatch_fallback "49".toList "121".toList htmlFinalUrl
      mismatchDoc (by decide)).1 (by decide),
   by decide, by decide⟩

/-- C7: the two layout strategies apply in a fixed order. When the primary
selection (hrefs starting with "Content" and ending in ".pdf") finds at
least one link, the result is independent of the `collapsibleContainer`
ids and `procTitle` texts — the secondary strategy is never consulted;
only when the primary selection is empty do the chosen links become the
constructed `Content/pdfs/procedures/{id}.pdf` paths with the `procTitle`
texts as titles. -/
theorem C7_fallback_order (volume page u : Str) (doc : PageDoc)
    (ids2 pts2 : List Str) (hu : endsWithCL u ".pdf".toList = false) :
    (doc.hrefs.filter pdf_link_filter ≠ [] →
      extract_pdf_links volume page ⟨u, doc⟩ =
        extract_pdf_links volume page
          ⟨u, ⟨doc.hrefs, doc.bodyTitleTexts, ids2, pts2⟩⟩) ∧
    (doc.hrefs.filter pdf_link_filter = [] →
      chosenLinks doc = doc.containerIds.map (fun i =>
        urljoinOrgSyn ("Content/pdfs/procedures/".toList ++ i ++ ".pdf".toList)) ∧
      chosenTitles doc = doc.procTitleTexts.map pyStrip) := by
  have hu' : endsWithCL u ['.', 'p', 'd', 'f'] = false := hu
  constructor
  · intro hne
    have hne' : (doc.hrefs.filter pdf_link_filter).isEmpty = false := by
      simpa [List.isEmpty_iff] using hne
    simp [extract_pdf_links, chosenLinks, chosenTitles, hu', hne']
  · intro hnil
    have hnil' : (doc.hrefs.filter pdf_link_filter).isEmpty = true := by
      simp [List.isEmpty_iff, hnil]
    exact ⟨by simp [chosenLinks, hnil'], by simp [chosenTitles, hnil']⟩

/-- C7 witness: with one primary link present, replacing the container ids
and procTitle texts does not change the extraction. -/
theorem C7_fallback_order_witness :
    extract_pdf_links "49".toList "121".toList ⟨htmlFinalUrl, primaryDoc⟩ =
      extract_pdf_links "49".toList "121".toList
        ⟨htmlFinalUrl,
          ⟨primaryDoc.hrefs, primaryDoc.bodyTitleTexts, ["z".toList], []⟩⟩ :=
  (C7_fallback_order "49".toList "121".toList htmlFinalUrl primaryDoc
      ["z".toList] [] (by decide)).1 (by decide)

theorem loadPagesLoop_error (srv : ServerView) (volume : Str)
    (vp : List Str) (p : Str) (rest : List Str) (hp : p ∉ vp) :
    ∀ (pre : List Str), (∀ q ∈ pre, q ∈ vp) →
      ∀ acc, loadPagesLoop srv volume vp (pre ++ p :: rest) acc =
        .error (.pageMissing p volume) := by
  intro pre
  induction pre with
  | nil =>
    intro _ acc
    simp [loadPagesLoop, hp]
  | cons q t ih =>
    intro hpre acc
    have hq : q ∈ vp := hpre q (List.mem_cons_self q t)
    simp only [List.cons_append, loadPagesLoop, if_pos hq]
    exact ih (fun r hr => hpre r (List.mem_cons_of_mem q hr)) _

/-- C8: a worker task validates against freshly fetched server state. If
its volume is absent from the fresh volume list, it fails with an error
naming that volume, whatever its page chunk; if the volume is present but
an assigned page is absent from the volume's fresh page list, it fails
with an error naming that page and volume — and the outcome is the same
for every possible remainder of the chunk, i.e. no page after the
offending one is processed. -/
theorem C8_worker_validation (srv : ServerView) (volume : Str) :
    (volume ∉ srv.volumes →
      ∀ pages, do_load_volume_pages_pdf_links srv volume pages =
        .error (.volumeMissing volume)) ∧
    (volume ∈ srv.volumes →
      ∀ (pre : List Str) (p : Str) (rest : List Str),
        (∀ q ∈ pre, q ∈ srv.pagesOf volume) →
        p ∉ srv.pagesOf volume →
        do_load_volume_pages_pdf_links srv volume (pre ++ p :: rest) =
          .error (.pageMissing p volume)) := by
  constructor
  · intro hv pages
    simp [do_load_volume_pages_pdf_links, hv]
  · intro hv pre p rest hpre hp
    simp only [do_load_volume_pages_pdf_links, if_pos hv]
    exact loadPagesLoop_error srv volume (srv.pagesOf volume) p rest hp pre hpre []

/-- C8 witness: on the concrete server, volume "96" fails with a
volume-naming error, and the chunk ["1", "7", "2"] of volume "95" fails
with an error naming page "7" without touching page "2". -/
theorem C8_worker_validation_witness :
    do_load_volume_pages_pdf_links sampleServer "96".toList ["1".toList] =
      .error (.volumeMissing "96".toList) ∧
    do_load_volume_pages_pdf_links sampleServer "95".toList
        ["1".toList, "7".toList, "2".toList] =
      .error (.pageMissing "7".toList "95".toList) :=
  ⟨(C8_worker_validation sampleServer "96".toList).1 (by decide) ["1".toList],
   (C8_worker_validation sampleServer "95".toList).2 (by decide)
     ["1".toList] "7".toList ["2".toList] (by decide) (by decide)⟩

theorem splitBySizes_join {α : Type} (ss : List Nat) :
    ∀ l : List α, (splitBySizes ss l).flatten = l.take ss.sum := by
  induction ss with
  | nil => intro l; simp [splitBySizes]
  | cons s t ih =>
    intro l
    simp only [splitBySizes, List.flatten_cons, ih, List.sum_cons, List.take_add]

theorem splitBySizes_length {α : Type} (ss : List Nat) :
    ∀ l : List α, (splitBySizes ss l).length = ss.length := by
  induction ss with
  | nil => intro l; rfl
  | cons s t ih => intro l; simp [splitBySizes, ih]

theorem splitBySizes_map_length {α : Type} (ss : List Nat) :
    ∀ l : List α, ss.sum ≤ l.length →
      (splitBySizes ss l).map List.length = ss := by
  induction ss with
  | nil => intro l _; rfl
  | cons s t ih =>
    intro l h
    simp only [List.sum_cons] at h
    have hs : s ≤ l.length := le_trans (Nat.le_add_right s t.sum) h
    simp only [splitBySizes, List.map_cons, List.length_take,
      Nat.min_eq_left hs]
    congr 1
    apply ih
    rw [List.length_drop]
    omega

theorem splitSizes_sum (len n : Nat) (hn : 0 < n) :
    (splitSizes len n).sum = len := by
  have hle : len % n ≤ n := le_of_lt (Nat.mod_lt len hn)
  have hk : len % n + (n - len % n) = n := Nat.add_sub_cancel' hle
  unfold splitSizes
  rw [List.sum_append, List.sum_replicate, List.sum_replicate,
    smul_eq_mul, smul_eq_mul]
  have h1 : len % n * (len / n + 1) + (n - len % n) * (len / n) =
      len % n + (len % n + (n - len % n)) * (len / n) := by ring
  rw [h1, hk]
  exact Nat.mod_add_div len n

/-- C9: for a positive worker count, `array_split` cuts the page sequence
into exactly `worker_count` contiguous chunks whose sizes are `len / n` or
`len / n + 1` (near-equal, differing by at most one), and whose
concatenation in worker order is the original page sequence — no page
lost, duplicated or reordered. -/
theorem C9_array_split (pages : List Str) (n : Nat) (hn : 0 < n) :
    (array_split pages n).length = n ∧
    (array_split pages n).flatten = pages ∧
    ∀ c ∈ array_split pages n,
      c.length = pages.length / n ∨ c.length = pages.length / n + 1 := by
  have hle : pages.length % n ≤ n := le_of_lt (Nat.mod_lt _ hn)
  have hsum := splitSizes_sum pages.length n hn
  refine ⟨?_, ?_, ?_⟩
  · unfold array_split
    rw [splitBySizes_length]
    unfold splitSizes
    rw [List.length_append, List.length_replicate, List.length_replicate]
    exact Nat.add_sub_cancel' hle
  · unfold array_split
    rw [splitBySizes_join, hsum, List.take_length]
  · intro c hc
    unfold array_split at hc
    have hml := splitBySizes_map_length (splitSizes pages.length n) pages
      (le_of_eq hsum)
    have hmem : c.length ∈ splitSizes pages.length n := by
      rw [← hml]
      exact List.mem_map_of_mem List.length hc
    unfold splitSizes at hmem
    rcases List.mem_append.mp hmem with h | h
    · right; exact List.eq_of_mem_replicate h
    · left; exact List.eq_of_mem_replicate h

/-- C9 witness: ten pages split across four workers give the chunk sizes
[3, 3, 2, 2], four chunks, and concatenate back to the ten pages. -/
theorem C9_array_split_witness :
    (0 < 4) ∧
    (array_split tenPages 4).length = 4 ∧
    (array_split tenPages 4).flatten = tenPages ∧
    (array_split tenPages 4).map List.length = [3, 3, 2, 2] :=
  ⟨by decide, (C9_array_split tenPages 4 (by decide)).1,
   (C9_array_split tenPages 4 (by decide)).2.1, by decide⟩
